import Mathlib

/-!
Verification development for the `autocxx` bridge conversion core.

We give a shallow embedding of the three source files
(`engine/src/bridge_converter.rs`, `engine/src/conversion/analysis/deps.rs`,
`src/value_param.rs`-adjacent data model) and prove or refute the frozen
claims about the natural-language specification.

Rust machine strings here are identifier strings (ASCII), so Rust byte
indexing into them coincides with character indexing; we model `String`
operations on the underlying character list.
-/

namespace Autocxx

/-- Character-list length of a string, matching Rust `str::len` on ASCII
identifier strings. -/
def strLen (s : String) : Nat := s.data.length

/-- Drop the first `n` characters, matching the Rust slice `&s[n..]` on
ASCII strings when `n ≤ s.len()`. -/
def strDropChars (s : String) (n : Nat) : String := String.mk (s.data.drop n)

/-- `strStarts s p` models Rust `s.starts_with(p)`. -/
def strStarts (s p : String) : Bool := p.data.isPrefixOf s.data

/-!  The `syn`-shaped type AST, restricted to the shapes the converter
inspects: path types (with optional angle-bracketed generic arguments),
references, raw pointers, and a representative of all other type shapes
(`tuple`), which `convert_type` passes through unchanged (`_ => ty`). -/

mutual

inductive RType : Type where
  | path (segments : List PathSeg) : RType
  | ref (lifetime : Option String) (mutability : Bool) (elem : RType) : RType
  | ptr (mutability : Bool) (elem : RType) : RType
  | tuple (elems : List RType) : RType

inductive PathSeg : Type where
  | mk (ident : String) (args : SegArgs) : PathSeg

inductive SegArgs : Type where
  | noArgs : SegArgs
  | angle (args : List GenArg) : SegArgs
  | parenArgs : SegArgs

inductive GenArg : Type where
  | typeArg (t : RType) : GenArg
  | otherArg : GenArg

end

def PathSeg.ident : PathSeg → String
  | .mk i _ => i

/-- Modelled from the spec: the Type Registry (`known_types.rs` is not among
the provided sources) is a static table mapping well-known foreign type names
to bridge-safe replacements — a unique-ownership pointer type, a string type
and a vector-like container, e.g. `std_unique_ptr` to `UniquePtr` as in the
converter's doc comment.  No replacement name is itself a key. -/
def knownTypeReplacement (s : String) : Option String :=
  if s = "std_unique_ptr" then some "UniquePtr"
  else if s = "std_string" then some "CxxString"
  else if s = "std_vector" then some "CxxVector"
  else none

/-- The identifier substitution inside `convert_type_path`:
keep the ident unless the registry has a replacement. -/
def replaceIdent (s : String) : String :=
  match knownTypeReplacement s with
  | none => s
  | some replacement => replacement

mutual

/-- `BridgeConverter::convert_type`: path types recurse into
`convert_type_path`; reference types recurse into the referent; raw pointer
types become references of matching mutability with no lifetime
(`convert_ptr_to_reference`); all other shapes pass through unchanged. -/
def convert_type : RType → RType
  | .path segs => .path (convert_type_path segs)
  | .ref lt m e => .ref lt m (convert_type e)
  | .ptr m e => .ref none m (convert_type e)
  | .tuple es => .tuple es

/-- `BridgeConverter::convert_type_path`, mapped over the path segments. -/
def convert_type_path : List PathSeg → List PathSeg
  | [] => []
  | s :: rest => convert_path_seg s :: convert_type_path rest

/-- One segment of `convert_type_path`: replace the ident via the registry
and recurse into angle-bracketed generic arguments. -/
def convert_path_seg : PathSeg → PathSeg
  | .mk id args => .mk (replaceIdent id) (convert_seg_args args)

/-- The `PathArguments` handling inside `convert_type_path`:
angle-bracketed arguments recurse via `convert_punctuated`, everything else
is kept as-is (`_ => s.arguments`). -/
def convert_seg_args : SegArgs → SegArgs
  | .noArgs => .noArgs
  | .angle l => .angle (convert_punctuated l)
  | .parenArgs => .parenArgs

/-- `BridgeConverter::convert_punctuated`: convert the type arguments,
pass other generic arguments through. -/
def convert_punctuated : List GenArg → List GenArg
  | [] => []
  | .typeArg t :: rest => .typeArg (convert_type t) :: convert_punctuated rest
  | .otherArg :: rest => .otherArg :: convert_punctuated rest

end

/-! ## The item-level data model -/

/-- A `syn::Attribute`, reduced to what `strip_attr` inspects:
`path.get_ident()` yields `some name` for a single-ident path and `none` for
a multi-segment path (which is always kept). -/
inductive Attr : Type where
  | ident (name : String) : Attr
  | pathMulti (raw : String) : Attr
deriving DecidableEq

/-- A `syn::Pat`, reduced to what `convert_fn_arg` inspects:
an ident pattern (the interesting case is the one named `this`), or any
other pattern (passed through). -/
inductive Pat : Type where
  | identPat (name : String) : Pat
  | wild : Pat
deriving DecidableEq

/-- A `syn::FnArg`: a typed `pat: ty` argument or a Rust `self` receiver. -/
inductive FnArg : Type where
  | typed (pat : Pat) (ty : RType) : FnArg
  | receiver : FnArg

/-- A `syn::Signature`, reduced to the fields the converter reads or
rewrites: name, unsafety marker, inputs, and return type (`none` models
`ReturnType::Default`). -/
structure Signature : Type where
  ident : String
  unsafety : Bool
  inputs : List FnArg
  output : Option RType

/-- A `syn::ForeignItemFn`: attributes plus signature (vis and the
semicolon token are copied through unchanged and carry no content). -/
structure ForeignItemFn : Type where
  attrs : List Attr
  sig : Signature

/-- A `syn::ForeignItem`.  Only plain functions are recognised by
`convert_foreign_mod_items`; `includeDirective` models the
`ForeignItem::Macro` `include!(..)` items that the converter synthesises,
`typeDecl` models `ForeignItem::Type` as emitted by `generate_type_alias`,
and `otherForeign` stands for every further variant.  All non-`fn` variants
of an *input* foreign block make the conversion fail. -/
inductive ForeignItem : Type where
  | fn (f : ForeignItemFn) : ForeignItem
  | includeDirective (header : String) : ForeignItem
  | typeDecl (name : String) : ForeignItem
  | otherForeign : ForeignItem

/-- One field of a struct: name and type. -/
structure Field : Type where
  name : String
  ty : RType

/-- A `syn::ItemStruct`, reduced to the fields the converter reads or
rewrites (attrs, ident, fields; vis/generics are copied unchanged). -/
structure ItemStruct : Type where
  attrs : List Attr
  ident : String
  fields : List Field

/-- A `syn::ItemEnum`, reduced likewise (variants are plain names here). -/
structure ItemEnum : Type where
  attrs : List Attr
  ident : String
  variants : List String

/-- A method inside an impl block: its signature and a body rendered as a
string (the converter only synthesises a one-call body). -/
structure ImplMethod : Type where
  sig : Signature
  body : String

/-- A `syn::ImplItem`: a method or anything else (ignored by the
converter's impl handling). -/
inductive ImplItem : Type where
  | method (m : ImplMethod) : ImplItem
  | otherImpl : ImplItem

/-- A `syn::Item`, covering every variant the converter treats specially
plus a pass-through representative.  `verbatimCpp ty` models the
`Item::Verbatim` `unsafe extern "C++" { type ty; }` tokens pushed by
`append_cpp_definition_squasher`; `mod_` models `Item::Mod` (used for the
synthesised `#[cxx::bridge] pub mod cxxbridge`). -/
inductive Item : Type where
  | foreignMod (attrs : List Attr) (abi : String) (items : List ForeignItem) : Item
  | structItem (s : ItemStruct) : Item
  | enumItem (e : ItemEnum) : Item
  | implItem (selfTy : RType) (items : List ImplItem) : Item
  | mod_ (attrs : List Attr) (name : String) (content : Option (List Item)) : Item
  | verbatimCpp (tyname : String) : Item
  | otherItem (raw : String) : Item

/-- A `syn::ItemMod` as handed to `convert`: only its optional body
matters (`None` = no braces/content). -/
structure ItemMod : Type where
  content : Option (List Item)

/-! ## TypeName and the by-value checker -/

/-- Modelled from the spec: `crate::TypeName` (not among the provided
sources) is a newtype over the type's name string; `from_type_path` reads
the name off the final path segment.  Used here as plain `String`. -/
def typeNameOfPath (segs : List PathSeg) : String :=
  match segs.getLast? with
  | some s => s.ident
  | none => ""

/-- `BridgeConverter::type_to_typename`: only path types yield a name. -/
def type_to_typename : RType → Option String
  | .path segs => some (typeNameOfPath segs)
  | _ => none

/-- Modelled from the spec: the primitive/known-safe leaf types of the
Value-Class Checker (`byvalue_checker.rs` is not among the provided
sources). -/
def primitiveSafe (t : String) : Bool :=
  t ∈ ["bool", "char", "u8", "u16", "u32", "u64", "usize",
       "i8", "i16", "i32", "i64", "isize", "f32", "f64",
       "c_char", "c_int", "c_uint", "c_long", "c_ulong"]

/-- Modelled from the spec: the Value-Class Checker ingests every
discovered aggregate's field-type list at `ingest_struct` time and, at
`satisfy_requests` time, records which explicitly requested types were
proven transitively value-safe. -/
structure ByValueChecker : Type where
  ingested : List (String × List String)
  approved : List String

def ByValueChecker.new : ByValueChecker := ⟨[], []⟩

/-- Names of a struct's field types, as the checker records them. -/
def fieldTypeNames (s : ItemStruct) : List String :=
  s.fields.filterMap (fun f => type_to_typename f.ty)

/-- Modelled from the spec: `ByValueChecker::ingest_struct` records the
aggregate's field types as a dependency list. -/
def ByValueChecker.ingest_struct (c : ByValueChecker) (s : ItemStruct) : ByValueChecker :=
  ⟨c.ingested ++ [(s.ident, fieldTypeNames s)], c.approved⟩

/-- Modelled from the spec: the transitive value-safety check, with fuel
against field cycles: a type is safe when primitive/known-safe, or ingested
with all field types safe; a type never ingested, or part of a field cycle
(fuel runs out), fails naming the offending type. -/
def checkSafe (ing : List (String × List String)) : Nat → String → Except String Unit
  | 0, t => .error t
  | fuel + 1, t =>
    if primitiveSafe t then .ok ()
    else
      match ing.lookup t with
      | none => .error t
      | some fs =>
        fs.foldl
          (fun acc f =>
            match acc with
            | Except.error e => Except.error e
            | Except.ok _ => checkSafe ing fuel f)
          (Except.ok ())

/-- Modelled from the spec: `ByValueChecker::satisfy_requests` — classify
each requested type, failing with the first offending type name, and record
the approved request set on success. -/
def ByValueChecker.satisfy_requests (c : ByValueChecker) (requests : List String) :
    Except String ByValueChecker :=
  let verdict := requests.foldl
    (fun acc r =>
      match acc with
      | Except.error e => Except.error e
      | Except.ok _ => checkSafe c.ingested (c.ingested.length + 1) r)
    (Except.ok ())
  match verdict with
  | .ok _ => .ok ⟨c.ingested, requests⟩
  | .error e => .error e

/-- Modelled from the spec: `ByValueChecker::is_pod` — value-type requests
are opt-in, so after a successful `satisfy_requests` exactly the requested
types are treated as value-safe; everything else defaults to opaque. -/
def ByValueChecker.is_pod (c : ByValueChecker) (t : String) : Bool :=
  c.approved.contains t

/-! ## The bridge converter -/

/-- `ConvertError` from `bridge_converter.rs`. -/
inductive ConvertError : Type where
  | NoContent : ConvertError
  | UnsafePODType (name : String) : ConvertError
  | UnknownForeignItem : ConvertError
deriving DecidableEq

/-- A run of `convert` either returns a Rust `Result` value or aborts the
process: `panicked` models a Rust panic (the out-of-range string slice in
`convert_foreign_fn` is the one reachable panic site we track). -/
inductive Failure : Type where
  | panicked : Failure
  | convErr (e : ConvertError) : Failure
deriving DecidableEq

/-- `EncounteredTypeKind` from `cpp_postprocessor` (declaration only;
the converter just constructs these records). -/
inductive EncounteredTypeKind : Type where
  | structKind : EncounteredTypeKind
  | enumKind : EncounteredTypeKind
deriving DecidableEq

/-- `EncounteredType(kind, name)` from `cpp_postprocessor`. -/
structure EncounteredType : Type where
  kind : EncounteredTypeKind
  name : String
deriving DecidableEq

/-- `AdditionalNeed` from `additional_cpp_generator` (declaration only):
a `MakeUnique(type, constructor argument types)` factory request. -/
inductive AdditionalNeed : Type where
  | makeUnique (ty : String) (args : List String) : AdditionalNeed
deriving DecidableEq

/-- `BridgeConversion`, the result bundle of a conversion. -/
structure BridgeConversion : Type where
  items : List Item
  types_to_disable : List EncounteredType
  additional_cpp_needs : List AdditionalNeed

/-- `BridgeConverter`: configuration plus the two mutable fields
(`class_names_discovered`, `byvalue_checker`) that live in the struct and
therefore persist across `convert` calls.  The `HashSet` of class names is
modelled as an insertion-ordered duplicate-free list; the unspecified
iteration order of the Rust `HashSet` is supplied separately to `convert`
as an enumeration function. -/
structure BridgeConverter : Type where
  include_list : List String
  pod_requests : List String
  old_rust : Bool
  class_names_discovered : List String
  byvalue_checker : ByValueChecker

/-- `BridgeConverter::new`. -/
def BridgeConverter.new (include_list : List String) (pod_requests : List String)
    (old_rust : Bool) : BridgeConverter :=
  ⟨include_list, pod_requests, old_rust, [], ByValueChecker.new⟩

/-- `HashSet::insert` on the insertion-ordered list model. -/
def insertClassName (l : List String) (x : String) : List String :=
  if l.contains x then l else l ++ [x]

/-- `BridgeConverter::strip_attr`: keep every attribute whose path ident is
not `to_strip` (multi-segment paths have no ident and are kept). -/
def strip_attr (attrs : List Attr) (toStrip : String) : List Attr :=
  attrs.filter (fun a =>
    match a with
    | .ident i => !(i == toStrip)
    | .pathMulti _ => true)

/-- `BridgeConverter::append_cpp_definition_squasher`: for non-legacy
targets, precede the item with a verbatim
`unsafe extern "C++" { type ident; }` forward declaration. -/
def append_cpp_definition_squasher (oldRust : Bool) (ident : String) (item : Item) :
    List Item :=
  if oldRust then [item] else [Item.verbatimCpp ident, item]

/-- `BridgeConverter::generate_type_alias`: an `extern "C" { type ty; }`
opaque alias plus the synthetic `{ty}ContainingStruct` wrapper holding a
single `UniquePtr<ty>` field. -/
def generate_type_alias (tyname : String) : List Item :=
  [ Item.foreignMod [] "C" [ForeignItem.typeDecl tyname],
    Item.structItem
      ⟨[], tyname ++ "ContainingStruct",
        [⟨"_0", RType.path [PathSeg.mk "UniquePtr"
          (SegArgs.angle [GenArg.typeArg (RType.path [PathSeg.mk tyname SegArgs.noArgs])])]⟩]⟩ ]

/-- `BridgeConverter::find_nested_pod_types`: ingest every struct item into
the by-value checker, then satisfy the explicit POD requests. -/
def find_nested_pod_types (bc : BridgeConverter) (items : List Item) :
    Except String ByValueChecker :=
  let c := items.foldl
    (fun c it =>
      match it with
      | .structItem s => c.ingest_struct s
      | _ => c)
    bc.byvalue_checker
  c.satisfy_requests bc.pod_requests

/-- `BridgeConverter::convert_fn_arg`: rename an argument whose ident
pattern is literally `this` to `self` (reporting it), and convert the
argument's type; receivers and other patterns pass through. -/
def convert_fn_arg (arg : FnArg) : FnArg × Bool :=
  match arg with
  | .typed pat ty =>
    match pat with
    | .identPat name =>
      if name == "this" then
        (.typed (.identPat "self") (convert_type ty), true)
      else
        (.typed (.identPat name) (convert_type ty), false)
    | .wild => (.typed .wild (convert_type ty), false)
  | .receiver => (.receiver, false)

/-- `BridgeConverter::convert_return_type`. -/
def convert_return_type (rt : Option RType) : Option RType :=
  match rt with
  | none => none
  | some t => some (convert_type t)

/-- The bindgen constructor-naming convention `{Type}_{Type}`. -/
def ctorName (t : String) : String := t ++ "_" ++ t

/-- `proc_macro2::Ident::new` (as called for the stripped method name):
it validates its input and panics (`none`) on an empty identifier. -/
def identNew (s : String) : Option String :=
  if strLen s = 0 then none else some s

/-- The class-name-stripping loop of `convert_foreign_fn`: the first class
name (in hash-set iteration order) that is a string prefix of the method's
name wins; the new name is `Ident::new` of the Rust slice
`&old_name[cn.len() + 1 ..]`.  Two panics (`none`) are reachable here: the
slice itself when the start index exceeds the name's length (method name
equal to the class name), and `Ident::new` when the slice is empty (method
name exactly one character longer). -/
def stripClassName (classOrder : List String) (oldName : String) : Option String :=
  match classOrder.find? (fun cn => strStarts oldName cn) with
  | none => some oldName
  | some cn =>
    if strLen cn + 1 ≤ strLen oldName then
      identNew (strDropChars oldName (strLen cn + 1))
    else
      none

/-- `BridgeConverter::convert_foreign_fn`.  `classOrder` is the hash-set
iteration order of `class_names_discovered`; `encountered` is the
`types_found` list.  Result: `none` = panic, `some none` = constructor
dropped, `some (some f)` = converted function.  (The Rust signature also
allows a `ConvertError`, but no branch produces one.) -/
def convert_foreign_fn (classOrder : List String) (encountered : List String)
    (f : ForeignItemFn) : Option (Option ForeignItemFn) :=
  let oldName := f.sig.ident
  if encountered.any (fun ty => oldName == ctorName ty) then
    some none
  else
    let output := convert_return_type f.sig.output
    let converted := f.sig.inputs.map convert_fn_arg
    let newParams := converted.map Prod.fst
    let isAMethod := converted.any Prod.snd
    let newIdent? := if isAMethod then stripClassName classOrder oldName else some oldName
    match newIdent? with
    | none => none
    | some newIdent =>
      some (some
        { attrs := strip_attr f.attrs "link_name",
          sig := { ident := newIdent, unsafety := f.sig.unsafety,
                   inputs := newParams, output := output } })

/-- `BridgeConverter::convert_foreign_mod_items`: convert each plain
function (dropping elided constructors); any other foreign-item kind is an
`UnknownForeignItem` error. -/
def convert_foreign_mod_items (classOrder : List String) (encountered : List String) :
    List ForeignItem → Except Failure (List ForeignItem)
  | [] => .ok []
  | .fn f :: rest =>
    match convert_foreign_fn classOrder encountered f with
    | none => .error .panicked
    | some none => convert_foreign_mod_items classOrder encountered rest
    | some (some g) =>
      match convert_foreign_mod_items classOrder encountered rest with
      | .ok tail => .ok (ForeignItem.fn g :: tail)
      | .error e => .error e
  | _ :: _ => .error (.convErr .UnknownForeignItem)

/-- `BridgeConverter::convert_struct` (the item-rewriting part: strip the
`repr` attribute; the class-name-set insertion is threaded by the caller). -/
def convert_struct (s : ItemStruct) : Item :=
  Item.structItem { s with attrs := strip_attr s.attrs "repr" }

/-- `BridgeConverter::convert_enum`: strip `repr` and `derive`. -/
def convert_enum (e : ItemEnum) : Item :=
  Item.enumItem { e with attrs := strip_attr (strip_attr e.attrs "repr") "derive" }

/-- Constructor argument type names collected for `MakeUnique`. -/
def ctorArgTypes (sig : Signature) : List String :=
  sig.inputs.filterMap (fun a =>
    match a with
    | .typed _ t => type_to_typename t
    | .receiver => none)

/-- The `AdditionalNeed`s recorded for an impl block's items: one
`MakeUnique(ty, ctor args)` per method literally named `new`. -/
def implNeeds (ty : String) (items : List ImplItem) : List AdditionalNeed :=
  items.filterMap (fun it =>
    match it with
    | .method m =>
      if m.sig.ident == "new" then some (.makeUnique ty (ctorArgTypes m.sig)) else none
    | .otherImpl => none)

/-- The replacement impl items pushed to `all_items`: per `new` method, an
impl carrying one `make_unique` method (unsafety removed) whose body calls
the conventional `{ty}_make_unique` free function. -/
def implOutputs (ty : String) (selfTy : RType) (items : List ImplItem) : List Item :=
  items.filterMap (fun it =>
    match it with
    | .method m =>
      if m.sig.ident == "new" then
        some (Item.implItem selfTy
          [ImplItem.method
            { sig := { m.sig with ident := "make_unique", unsafety := false },
              body := ty ++ "_make_unique()" }])
      else none
    | .otherImpl => none)

/-- The accumulator state of `convert`'s item loop: the local `mut`
variables of `BridgeConverter::convert` plus the converter's
`class_names_discovered` field (mutated by `convert_struct`). -/
structure LoopSt : Type where
  allItems : List Item
  bridgeItems : List Item
  externCMod : Option (List Attr × String × List ForeignItem)
  addNeeds : List AdditionalNeed
  typesToDisable : List EncounteredType
  typesFound : List String
  classNames : List String

/-- The merged extern-mod bookkeeping of `convert`: the first extern block
seen donates its attrs and ABI and starts with one `include!` per header;
every block's converted contents are appended. -/
def mergeExtern (fullInc : List String) (fattrs : List Attr) (fabi : String)
    (cur : Option (List Attr × String × List ForeignItem))
    (converted : List ForeignItem) : List Attr × String × List ForeignItem :=
  match cur with
  | none => (fattrs, fabi, fullInc.map ForeignItem.includeDirective ++ converted)
  | some (a, abi, its) => (a, abi, its ++ converted)

/-- One iteration of the item loop of `BridgeConverter::convert`.
`ord` supplies the hash-set iteration order used by the prefix-stripping
loop of `convert_foreign_fn`. -/
def convertItem (oldRust : Bool) (fullInc : List String) (checker : ByValueChecker)
    (ord : List String → List String) (st : LoopSt) : Item → Except Failure LoopSt
  | .foreignMod fattrs fabi fitems =>
    match convert_foreign_mod_items (ord st.classNames) st.typesFound fitems with
    | .error e => .error e
    | .ok converted =>
      .ok { st with
        externCMod := some (mergeExtern fullInc fattrs fabi st.externCMod converted) }
  | .structItem s =>
    let tyname := s.ident
    let found := st.typesFound ++ [tyname]
    if checker.is_pod tyname then
      .ok { st with
        typesFound := found,
        typesToDisable := st.typesToDisable ++ [⟨.structKind, tyname⟩],
        classNames := insertClassName st.classNames tyname,
        bridgeItems := st.bridgeItems
          ++ append_cpp_definition_squasher oldRust tyname (convert_struct s) }
    else
      .ok { st with
        typesFound := found,
        bridgeItems := st.bridgeItems ++ generate_type_alias tyname }
  | .enumItem e =>
    .ok { st with
      typesToDisable := st.typesToDisable ++ [⟨.enumKind, e.ident⟩],
      bridgeItems := st.bridgeItems
        ++ append_cpp_definition_squasher oldRust e.ident (convert_enum e) }
  | .implItem selfTy iitems =>
    match type_to_typename selfTy with
    | none => .ok st
    | some ty =>
      .ok { st with
        allItems := st.allItems ++ implOutputs ty selfTy iitems,
        addNeeds := st.addNeeds ++ implNeeds ty iitems }
  | it => .ok { st with allItems := st.allItems ++ [it] }

/-- The item loop of `BridgeConverter::convert`. -/
def convertLoop (oldRust : Bool) (fullInc : List String) (checker : ByValueChecker)
    (ord : List String → List String) : List Item → LoopSt → Except Failure LoopSt
  | [], st => .ok st
  | it :: rest, st =>
    match convertItem oldRust fullInc checker ord st it with
    | .error e => .error e
    | .ok st' => convertLoop oldRust fullInc checker ord rest st'

/-- The full header list: the converter's include list plus the optional
extra inclusion. -/
def fullIncludeList (bc : BridgeConverter) (extra : Option String) : List String :=
  bc.include_list ++ (match extra with | some e => [e] | none => [])

/-- The tail of `BridgeConverter::convert` on success: push the merged
extern mod into the bridge items, wrap them in the synthesised
`#[cxx::bridge] pub mod cxxbridge`, and return the bundle together with the
mutated converter (its `class_names_discovered` and `byvalue_checker`
fields live on, since `convert` takes `&mut self`). -/
def finishConversion (bc : BridgeConverter) (checker : ByValueChecker) (st : LoopSt) :
    BridgeConversion × BridgeConverter :=
  (⟨st.allItems
      ++ [Item.mod_ [Attr.pathMulti "cxx::bridge"] "cxxbridge"
            (some (st.bridgeItems
              ++ (match st.externCMod with
                  | some (a, abi, its) => [Item.foreignMod a abi its]
                  | none => [])))],
    st.typesToDisable, st.addNeeds⟩,
   { bc with class_names_discovered := st.classNames, byvalue_checker := checker })

/-- `BridgeConverter::convert`.  `ord` models the (per-run, unspecified)
iteration order of the `class_names_discovered` hash set; a real run uses
some such enumeration. -/
def BridgeConverter.convert (bc : BridgeConverter) (ord : List String → List String)
    (bindings : ItemMod) (extra_inclusion : Option String) :
    Except Failure (BridgeConversion × BridgeConverter) :=
  match bindings.content with
  | none => .error (.convErr .NoContent)
  | some items =>
    match find_nested_pod_types bc items with
    | .error s => .error (.convErr (.UnsafePODType s))
    | .ok checker =>
      match convertLoop bc.old_rust (fullIncludeList bc extra_inclusion) checker ord items
          ⟨[], [], none, [], [], [], bc.class_names_discovered⟩ with
      | .error f => .error f
      | .ok st => .ok (finishConversion bc checker st)

/-! ## Projections used to state claims -/

/-- Whether a conversion run returned `Ok`. -/
def resultIsOk (r : Except Failure (BridgeConversion × BridgeConverter)) : Bool :=
  match r with
  | .ok _ => true
  | .error _ => false

/-- The output bundle of a successful run (empty bundle otherwise). -/
def bundleOf (r : Except Failure (BridgeConversion × BridgeConverter)) : BridgeConversion :=
  match r with
  | .ok p => p.1
  | .error _ => ⟨[], [], []⟩

/-- The converter state after a successful run (fresh converter otherwise). -/
def converterAfter (r : Except Failure (BridgeConversion × BridgeConverter)) :
    BridgeConverter :=
  match r with
  | .ok p => p.2
  | .error _ => BridgeConverter.new [] [] false

/-- The checker produced by `find_nested_pod_types` when it succeeds. -/
def checkerAfterFind (bc : BridgeConverter) (items : List Item) : ByValueChecker :=
  match find_nested_pod_types bc items with
  | .ok c => c
  | .error _ => bc.byvalue_checker

/-- The signatures of the foreign functions contained in a list of items
(one level: the extern mods directly in the list). -/
def externSigsOfItems (items : List Item) : List Signature :=
  items.foldr
    (fun it acc =>
      match it with
      | .foreignMod _ _ fits =>
        fits.filterMap (fun fi =>
          match fi with
          | .fn f => some f.sig
          | _ => none) ++ acc
      | _ => acc) []

/-- The signatures of the foreign functions inside the synthesised bridge
modules of an output bundle. -/
def bundleExternSigs (b : BridgeConversion) : List Signature :=
  b.items.foldr
    (fun it acc =>
      match it with
      | .mod_ _ _ (some sub) => externSigsOfItems sub ++ acc
      | _ => acc) []

/-- Extern-function signatures of a run's output. -/
def externSigsOfResult (r : Except Failure (BridgeConversion × BridgeConverter)) :
    List Signature :=
  bundleExternSigs (bundleOf r)

/-- `additional_cpp_needs` of a run's output. -/
def needsOf (r : Except Failure (BridgeConversion × BridgeConverter)) :
    List AdditionalNeed :=
  (bundleOf r).additional_cpp_needs

/-- `types_to_disable` of a run's output. -/
def typesToDisableOf (r : Except Failure (BridgeConversion × BridgeConverter)) :
    List EncounteredType :=
  (bundleOf r).types_to_disable

/-! ## The API dependency analyzer (`conversion/analysis/deps.rs`)

The `Api` payload types (`api.rs`, `pod.rs`, `fun.rs`, `tdef.rs`) are not
among the provided sources; their shapes are modelled from the spec's data
model (qualified names as strings, order-preserving dependency sequences as
lists).  The per-kind match logic below is translated from `deps.rs`. -/

/-- Modelled from the spec: `TypeKind` distinguishes value-safe (`Pod`)
structs from opaque ones. -/
inductive TypeKind : Type where
  | pod : TypeKind
  | opaque_ : TypeKind
deriving DecidableEq

/-- Modelled from the spec: the provisional struct analysis — the verdict
and the struct's field types. -/
structure PodAnalysis : Type where
  kind : TypeKind
  field_types : List String

/-- Modelled from the spec: the typedef analysis carries recorded
dependencies. -/
structure TypedefAnalysis : Type where
  deps : List String

/-- Modelled from the spec: the allocator-enriched struct analysis of the
later phase: the provisional analysis plus constructor/allocator
dependencies. -/
structure PodAndDepAnalysis : Type where
  pod : PodAnalysis
  constructor_and_allocator_deps : List String

/-- `Api<FnPrePhase>`, restricted to the dependency-bearing variants
matched in `deps.rs` plus a representative of all other kinds. -/
inductive ApiPre : Type where
  | typedef (old_tyname : Option String) (analysis : TypedefAnalysis) : ApiPre
  | structApi (analysis : PodAnalysis) : ApiPre
  | function (deps : List String) : ApiPre
  | subclass (name : String) (superclass : String) : ApiPre
  | rustSubclassFn (dependencies : List String) : ApiPre
  | otherApi : ApiPre

/-- `Api<FnPhase>`, likewise (struct analysis now allocator-enriched). -/
inductive ApiFn : Type where
  | typedef (old_tyname : Option String) (analysis : TypedefAnalysis) : ApiFn
  | structApi (analysis : PodAndDepAnalysis) : ApiFn
  | function (deps : List String) : ApiFn
  | subclass (name : String) (superclass : String) : ApiFn
  | rustSubclassFn (dependencies : List String) : ApiFn
  | otherApi : ApiFn

/-- `HasDependencies::deps` for `Api<FnPrePhase>`: the early-phase match of
`deps.rs`.  Note the struct arm only fires for `TypeKind::Pod`; non-Pod
structs fall to the catch-all empty case. -/
def depsPre : ApiPre → List String
  | .typedef old a => (match old with | some t => [t] | none => []) ++ a.deps
  | .structApi a =>
    match a.kind with
    | .pod => a.field_types
    | .opaque_ => []
  | .function ds => ds
  | .subclass _ superclass => [superclass]
  | .rustSubclassFn ds => ds
  | .otherApi => []

/-- `HasDependencies::deps` for `Api<FnPhase>`: the later-phase match of
`deps.rs`.  Pod structs yield field types then constructor/allocator deps;
other structs yield the constructor/allocator deps only. -/
def depsFn : ApiFn → List String
  | .typedef old a => (match old with | some t => [t] | none => []) ++ a.deps
  | .structApi a =>
    match a.pod.kind with
    | .pod => a.pod.field_types ++ a.constructor_and_allocator_deps
    | .opaque_ => a.constructor_and_allocator_deps
  | .function ds => ds
  | .subclass _ superclass => [superclass]
  | .rustSubclassFn ds => ds
  | .otherApi => []

/-! ## Concrete inputs used by counterexamples and witnesses -/

/-- A path type with a single plain segment. -/
def plainPath (name : String) : RType := RType.path [PathSeg.mk name SegArgs.noArgs]

/-- C1 input: a single aggregate `W`, not requested as value-safe, hence
classified opaque. -/
def c1Mod : ItemMod := ⟨some [Item.structItem ⟨[], "W", []⟩]⟩

def c1Run : Except Failure (BridgeConversion × BridgeConverter) :=
  BridgeConverter.convert (BridgeConverter.new [] [] false) id c1Mod none

/-- C2 input: a foreign block containing the synthesized constructor
`T_T`, placed *before* the definition of aggregate `T` and its
constructor impl. -/
def c2Items : List Item :=
  [ Item.foreignMod [] "C" [ForeignItem.fn ⟨[], ⟨"T_T", false, [], none⟩⟩],
    Item.structItem ⟨[], "T", []⟩,
    Item.implItem (plainPath "T")
      [ImplItem.method ⟨⟨"new", false, [], none⟩, ""⟩] ]

def c2Mod : ItemMod := ⟨some c2Items⟩

def c2Run : Except Failure (BridgeConversion × BridgeConverter) :=
  BridgeConverter.convert (BridgeConverter.new [] [] false) id c2Mod none

/-- The `Widget_resize(this: *mut Widget, w: i32)` foreign function of the
C3 scenario. -/
def widgetResizeFn : ForeignItemFn :=
  ⟨[], ⟨"Widget_resize", false,
    [ FnArg.typed (Pat.identPat "this") (RType.ptr true (plainPath "Widget")),
      FnArg.typed (Pat.identPat "w") (plainPath "i32") ], none⟩⟩

/-- C3 input: aggregate `Widget` followed by a foreign block holding
`Widget_resize`. -/
def c3Items : List Item :=
  [ Item.structItem ⟨[], "Widget", []⟩,
    Item.foreignMod [] "C" [ForeignItem.fn widgetResizeFn] ]

def c3Mod : ItemMod := ⟨some c3Items⟩

/-- C3 run with `Widget` requested (and proven) value-safe. -/
def c3RunPod : Except Failure (BridgeConversion × BridgeConverter) :=
  BridgeConverter.convert (BridgeConverter.new ["widget.h"] ["Widget"] false) id c3Mod none

/-- C3 run with `Widget` not requested as value-safe (hence opaque). -/
def c3RunOpaque : Except Failure (BridgeConversion × BridgeConverter) :=
  BridgeConverter.convert (BridgeConverter.new ["widget.h"] [] false) id c3Mod none

/-- C8 input: two discovered class names `A` and `A_B`, and a method
`A_B_foo` whose name both of them prefix. -/
def c8Mod : ItemMod :=
  ⟨some
    [ Item.structItem ⟨[], "A", []⟩,
      Item.structItem ⟨[], "A_B", []⟩,
      Item.foreignMod [] "C"
        [ForeignItem.fn ⟨[], ⟨"A_B_foo", false,
          [FnArg.typed (Pat.identPat "this") (RType.ptr true (plainPath "A_B"))], none⟩⟩] ]⟩

/-- C8 run under one hash-set enumeration order. -/
def c8Run1 : Except Failure (BridgeConversion × BridgeConverter) :=
  BridgeConverter.convert (BridgeConverter.new [] ["A", "A_B"] false) id c8Mod none

/-- C8 run of the identical input under the reversed enumeration order. -/
def c8Run2 : Except Failure (BridgeConversion × BridgeConverter) :=
  BridgeConverter.convert (BridgeConverter.new [] ["A", "A_B"] false) List.reverse c8Mod none

/-- C9 first-run input: one value-safe aggregate `A`. -/
def c9Mod1 : ItemMod := ⟨some [Item.structItem ⟨[], "A", []⟩]⟩

/-- C9 second-run input: a foreign block with a method `A_foo`, no
aggregates of its own. -/
def c9Mod2 : ItemMod :=
  ⟨some
    [ Item.foreignMod [] "C"
        [ForeignItem.fn ⟨[], ⟨"A_foo", false,
          [FnArg.typed (Pat.identPat "this") (RType.ptr true (plainPath "X"))], none⟩⟩] ]⟩

def c9Converter0 : BridgeConverter := BridgeConverter.new [] ["A"] false

/-- C9: first run, through a fresh converter. -/
def c9Run1 : Except Failure (BridgeConversion × BridgeConverter) :=
  BridgeConverter.convert c9Converter0 id c9Mod1 none

/-- C9: second run through the *same* converter (state threaded). -/
def c9Run2Seq : Except Failure (BridgeConversion × BridgeConverter) :=
  BridgeConverter.convert (converterAfter c9Run1) id c9Mod2 none

/-- C9: the second run's input, through a fresh converter instead. -/
def c9Run2Fresh : Except Failure (BridgeConversion × BridgeConverter) :=
  BridgeConverter.convert c9Converter0 id c9Mod2 none

/-- C10 input: value-safe aggregate `Widget` and a foreign function
literally named `Widget` carrying a `this` parameter, so that the
class-name prefix strip slices `"Widget"[7..]`. -/
def c10Mod : ItemMod :=
  ⟨some
    [ Item.structItem ⟨[], "Widget", []⟩,
      Item.foreignMod [] "C"
        [ForeignItem.fn ⟨[], ⟨"Widget", false,
          [FnArg.typed (Pat.identPat "this") (RType.ptr true (plainPath "Widget"))], none⟩⟩] ]⟩

def c10Run : Except Failure (BridgeConversion × BridgeConverter) :=
  BridgeConverter.convert (BridgeConverter.new [] ["Widget"] false) id c10Mod none

/-- C10 boundary input: like `c10Mod` but the method's name, `Widgets`, is
one character longer than the discovered class name `Widget`, so the slice
start index equals the name's length and the sliced name is empty —
rejected by `Ident::new`. -/
def c10bMod : ItemMod :=
  ⟨some
    [ Item.structItem ⟨[], "Widget", []⟩,
      Item.foreignMod [] "C"
        [ForeignItem.fn ⟨[], ⟨"Widgets", false,
          [FnArg.typed (Pat.identPat "this") (RType.ptr true (plainPath "Widget"))], none⟩⟩] ]⟩

def c10bRun : Except Failure (BridgeConversion × BridgeConverter) :=
  BridgeConverter.convert (BridgeConverter.new [] ["Widget"] false) id c10bMod none

/-- C8 witness input: a single class name, so every method name has at most
one matching class-name prefix. -/
def c8wItems : List Item :=
  [ Item.structItem ⟨[], "A", []⟩,
    Item.foreignMod [] "C"
      [ForeignItem.fn ⟨[], ⟨"A_foo", false,
        [FnArg.typed (Pat.identPat "this") (RType.ptr true (plainPath "A"))], none⟩⟩] ]

def c8wMod : ItemMod := ⟨some c8wItems⟩

/-! ## Supporting lemmas: idempotence of the type conversion (C7) -/

theorem replaceIdent_idem (s : String) :
    replaceIdent (replaceIdent s) = replaceIdent s := by
  by_cases h1 : s = "std_unique_ptr"
  · subst h1; rfl
  by_cases h2 : s = "std_string"
  · subst h2; rfl
  by_cases h3 : s = "std_vector"
  · subst h3; rfl
  have hid : replaceIdent s = s := by
    unfold replaceIdent knownTypeReplacement
    simp [h1, h2, h3]
  rw [hid, hid]

mutual

theorem convert_type_idem : (t : RType) →
    convert_type (convert_type t) = convert_type t
  | .path segs => by
    simp only [convert_type]
    rw [convert_type_path_idem segs]
  | .ref lt m e => by
    simp only [convert_type]
    rw [convert_type_idem e]
  | .ptr m e => by
    simp only [convert_type]
    rw [convert_type_idem e]
  | .tuple es => rfl

theorem convert_type_path_idem : (l : List PathSeg) →
    convert_type_path (convert_type_path l) = convert_type_path l
  | [] => rfl
  | s :: rest => by
    simp only [convert_type_path]
    rw [convert_path_seg_idem s, convert_type_path_idem rest]

theorem convert_path_seg_idem : (s : PathSeg) →
    convert_path_seg (convert_path_seg s) = convert_path_seg s
  | .mk id args => by
    simp only [convert_path_seg]
    rw [replaceIdent_idem id, convert_seg_args_idem args]

theorem convert_seg_args_idem : (a : SegArgs) →
    convert_seg_args (convert_seg_args a) = convert_seg_args a
  | .noArgs => rfl
  | .angle l => by
    simp only [convert_seg_args]
    rw [convert_punctuated_idem l]
  | .parenArgs => rfl

theorem convert_punctuated_idem : (l : List GenArg) →
    convert_punctuated (convert_punctuated l) = convert_punctuated l
  | [] => rfl
  | .typeArg t :: rest => by
    simp only [convert_punctuated]
    rw [convert_type_idem t, convert_punctuated_idem rest]
  | .otherArg :: rest => by
    simp only [convert_punctuated]
    rw [convert_punctuated_idem rest]

end

/-! ## Supporting definitions and lemmas: raw-pointer elimination (C4) -/

mutual

/-- Whether a raw-pointer type occurs anywhere in a type. -/
def containsPtr : RType → Bool
  | .path segs => segsContainPtr segs
  | .ref _ _ e => containsPtr e
  | .ptr _ _ => true
  | .tuple es => elemsContainPtr es

def segsContainPtr : List PathSeg → Bool
  | [] => false
  | s :: rest => segContainsPtr s || segsContainPtr rest

def segContainsPtr : PathSeg → Bool
  | .mk _ .noArgs => false
  | .mk _ (.angle l) => genArgsContainPtr l
  | .mk _ .parenArgs => false

def genArgsContainPtr : List GenArg → Bool
  | [] => false
  | .typeArg t :: rest => containsPtr t || genArgsContainPtr rest
  | .otherArg :: rest => genArgsContainPtr rest

def elemsContainPtr : List RType → Bool
  | [] => false
  | t :: rest => containsPtr t || elemsContainPtr rest

end

mutual

/-- Whether a type is built solely from the shapes `convert_type` recurses
into: paths (with at most angle-bracketed generic arguments), references
and raw pointers.  Shapes the conversion passes through unchanged (tuples
and the like, parenthesized generic arguments) are excluded. -/
def regularShape : RType → Bool
  | .path segs => segsRegular segs
  | .ref _ _ e => regularShape e
  | .ptr _ e => regularShape e
  | .tuple _ => false

def segsRegular : List PathSeg → Bool
  | [] => true
  | s :: rest => segRegular s && segsRegular rest

def segRegular : PathSeg → Bool
  | .mk _ .noArgs => true
  | .mk _ (.angle l) => genArgsRegular l
  | .mk _ .parenArgs => false

def genArgsRegular : List GenArg → Bool
  | [] => true
  | .typeArg t :: rest => regularShape t && genArgsRegular rest
  | .otherArg :: rest => genArgsRegular rest

end

mutual

theorem regular_no_ptr : (t : RType) → regularShape t = true →
    containsPtr (convert_type t) = false
  | .path segs => fun h => by
    simp only [regularShape] at h
    simp only [convert_type, containsPtr]
    exact segs_regular_no_ptr segs h
  | .ref lt m e => fun h => by
    simp only [regularShape] at h
    simp only [convert_type, containsPtr]
    exact regular_no_ptr e h
  | .ptr m e => fun h => by
    simp only [regularShape] at h
    simp only [convert_type, containsPtr]
    exact regular_no_ptr e h
  | .tuple es => fun h => by
    simp only [regularShape] at h
    exact absurd h (by simp)

theorem segs_regular_no_ptr : (l : List PathSeg) → segsRegular l = true →
    segsContainPtr (convert_type_path l) = false
  | [] => fun _ => rfl
  | s :: rest => fun h => by
    simp only [segsRegular, Bool.and_eq_true] at h
    simp only [convert_type_path, segsContainPtr, Bool.or_eq_false_iff]
    exact ⟨seg_regular_no_ptr s h.1, segs_regular_no_ptr rest h.2⟩

theorem seg_regular_no_ptr : (s : PathSeg) → segRegular s = true →
    segContainsPtr (convert_path_seg s) = false
  | .mk id .noArgs => fun _ => rfl
  | .mk id (.angle l) => fun h => by
    simp only [segRegular] at h
    simp only [convert_path_seg, convert_seg_args, segContainsPtr]
    exact genargs_regular_no_ptr l h
  | .mk id .parenArgs => fun h => by
    simp only [segRegular] at h
    exact absurd h (by simp)

theorem genargs_regular_no_ptr : (l : List GenArg) → genArgsRegular l = true →
    genArgsContainPtr (convert_punctuated l) = false
  | [] => fun _ => rfl
  | .typeArg t :: rest => fun h => by
    simp only [genArgsRegular, Bool.and_eq_true] at h
    simp only [convert_punctuated, genArgsContainPtr, Bool.or_eq_false_iff]
    exact ⟨regular_no_ptr t h.1, genargs_regular_no_ptr rest h.2⟩
  | .otherArg :: rest => fun h => by
    simp only [genArgsRegular] at h
    simp only [convert_punctuated, genArgsContainPtr]
    exact genargs_regular_no_ptr rest h

end

/-! ## Supporting lemmas: which errors each stage can produce (C6) -/

theorem cfmi_error_shape (co enc : List String) :
    ∀ (l : List ForeignItem) (e : Failure),
      convert_foreign_mod_items co enc l = .error e →
      e = .panicked ∨ e = .convErr .UnknownForeignItem := by
  intro l
  induction l with
  | nil =>
    intro e h
    simp [convert_foreign_mod_items] at h
  | cons hd tl ih =>
    intro e h
    cases hd with
    | fn f =>
      simp only [convert_foreign_mod_items] at h
      split at h
      · exact .inl (by injection h with h2; exact h2.symm)
      · exact ih e h
      · split at h
        · cases h
        · rename_i heq
          injection h with h2
          subst h2
          exact ih _ heq
    | includeDirective s =>
      simp only [convert_foreign_mod_items] at h
      exact .inr (by injection h with h2; exact h2.symm)
    | typeDecl n =>
      simp only [convert_foreign_mod_items] at h
      exact .inr (by injection h with h2; exact h2.symm)
    | otherForeign =>
      simp only [convert_foreign_mod_items] at h
      exact .inr (by injection h with h2; exact h2.symm)

theorem convertItem_error_shape (oldRust : Bool) (fullInc : List String)
    (checker : ByValueChecker) (ord : List String → List String) (st : LoopSt)
    (it : Item) (e : Failure) :
    convertItem oldRust fullInc checker ord st it = .error e →
    e = .panicked ∨ e = .convErr .UnknownForeignItem := by
  intro h
  cases it <;> simp only [convertItem] at h
  case foreignMod fattrs fabi fitems =>
    split at h
    · rename_i heq
      injection h with h2
      subst h2
      exact cfmi_error_shape _ _ _ _ heq
    · cases h
  case structItem s =>
    split at h <;> cases h
  case implItem selfTy iitems =>
    split at h <;> cases h
  all_goals cases h

theorem convertLoop_error_shape (oldRust : Bool) (fullInc : List String)
    (checker : ByValueChecker) (ord : List String → List String) :
    ∀ (items : List Item) (st : LoopSt) (e : Failure),
      convertLoop oldRust fullInc checker ord items st = .error e →
      e = .panicked ∨ e = .convErr .UnknownForeignItem := by
  intro items
  induction items with
  | nil =>
    intro st e h
    simp [convertLoop] at h
  | cons hd tl ih =>
    intro st e h
    simp only [convertLoop] at h
    split at h
    · injection h with h2
      subst h2
      exact convertItem_error_shape _ _ _ _ _ _ _ (by assumption)
    · exact ih _ e h

/-! ## Spec-side characterizations (for the refinement claims C1 and C2) -/

/-- Following the spec's words (C1/C2 refinement targets): the
`EncounteredType` records the spec promises for a run over `items` under a
given classification: one `(Struct, name)` per value-safe aggregate, one
`(Enum, name)` per enum, in discovery order.  (The original claim instead
promises a `(Struct, name)` for *every* aggregate.) -/
def specTypesToDisable (checker : ByValueChecker) (items : List Item) :
    List EncounteredType :=
  items.foldr
    (fun it acc =>
      match it with
      | .structItem s =>
        (if checker.is_pod s.ident then [⟨.structKind, s.ident⟩] else []) ++ acc
      | .enumItem e => ⟨.enumKind, e.ident⟩ :: acc
      | _ => acc) []

/-- Following the spec's words (C2 refinement target): one
`MakeUnique(T, constructor argument types)` per impl-block method literally
named `new`, in item order. -/
def specMakeUniqueNeeds (items : List Item) : List AdditionalNeed :=
  items.foldr
    (fun it acc =>
      match it with
      | .implItem selfTy iitems =>
        (match type_to_typename selfTy with
         | some ty => implNeeds ty iitems
         | none => []) ++ acc
      | _ => acc) []

/-! ## Supporting lemmas: what each loop iteration appends -/

/-- The `types_to_disable` entries contributed by one item. -/
def itemDisables (checker : ByValueChecker) : Item → List EncounteredType
  | .structItem s => if checker.is_pod s.ident then [⟨.structKind, s.ident⟩] else []
  | .enumItem e => [⟨.enumKind, e.ident⟩]
  | _ => []

/-- The `additional_cpp_needs` entries contributed by one item. -/
def itemNeeds : Item → List AdditionalNeed
  | .implItem selfTy iitems =>
    match type_to_typename selfTy with
    | some ty => implNeeds ty iitems
    | none => []
  | _ => []

theorem specTypesToDisable_cons (checker : ByValueChecker) (it : Item) (items : List Item) :
    specTypesToDisable checker (it :: items)
      = itemDisables checker it ++ specTypesToDisable checker items := by
  cases it <;> simp [specTypesToDisable, itemDisables]

theorem specMakeUniqueNeeds_cons (it : Item) (items : List Item) :
    specMakeUniqueNeeds (it :: items) = itemNeeds it ++ specMakeUniqueNeeds items := by
  cases it <;> simp [specMakeUniqueNeeds, itemNeeds]

theorem convertItem_effects (oldRust : Bool) (fullInc : List String)
    (checker : ByValueChecker) (ord : List String → List String) (st : LoopSt)
    (it : Item) (st' : LoopSt)
    (h : convertItem oldRust fullInc checker ord st it = .ok st') :
    st'.typesToDisable = st.typesToDisable ++ itemDisables checker it
    ∧ st'.addNeeds = st.addNeeds ++ itemNeeds it
    ∧ ∃ t, st'.classNames = st.classNames ++ t := by
  cases it <;> simp only [convertItem, itemDisables, itemNeeds] at *
  case foreignMod fattrs fabi fitems =>
    split at h
    · cases h
    · injection h with h2
      subst h2
      exact ⟨by simp, by simp, [], by simp⟩
  case structItem s =>
    split at h
    · injection h with h2
      subst h2
      refine ⟨by simp [*], by simp, ?_⟩
      unfold insertClassName
      split
      · exact ⟨[], by simp⟩
      · exact ⟨[s.ident], by simp⟩
    · injection h with h2
      subst h2
      exact ⟨by simp [*], by simp, [], by simp⟩
  case enumItem e =>
    injection h with h2
    subst h2
    exact ⟨by simp, by simp, [], by simp⟩
  case implItem selfTy iitems =>
    split at h
    · rename_i heq
      injection h with h2
      subst h2
      exact ⟨by simp, by simp [heq], [], by simp⟩
    · rename_i ty heq
      injection h with h2
      subst h2
      exact ⟨by simp, by simp [heq], [], by simp⟩
  all_goals
    injection h with h2
    subst h2
    exact ⟨by simp, by simp, [], by simp⟩

theorem convertLoop_effects (oldRust : Bool) (fullInc : List String)
    (checker : ByValueChecker) (ord : List String → List String) :
    ∀ (items : List Item) (st st' : LoopSt),
      convertLoop oldRust fullInc checker ord items st = .ok st' →
      st'.typesToDisable = st.typesToDisable ++ specTypesToDisable checker items
      ∧ st'.addNeeds = st.addNeeds ++ specMakeUniqueNeeds items
      ∧ ∃ t, st'.classNames = st.classNames ++ t := by
  intro items
  induction items with
  | nil =>
    intro st st' h
    simp only [convertLoop] at h
    injection h with h2
    subst h2
    exact ⟨by simp [specTypesToDisable], by simp [specMakeUniqueNeeds], [], by simp⟩
  | cons hd tl ih =>
    intro st st' h
    simp only [convertLoop] at h
    split at h
    · cases h
    · rename_i st1 heq
      obtain ⟨hd1, hd2, t1, hd3⟩ := convertItem_effects _ _ _ _ _ _ _ heq
      obtain ⟨hl1, hl2, t2, hl3⟩ := ih _ _ h
      refine ⟨?_, ?_, ?_⟩
      · rw [hl1, hd1, specTypesToDisable_cons, List.append_assoc]
      · rw [hl2, hd2, specMakeUniqueNeeds_cons, List.append_assoc]
      · exact ⟨t1 ++ t2, by rw [hl3, hd3, List.append_assoc]⟩

/-! ## Supporting lemmas: dependence on the hash-set iteration order (C8) -/

/-- At most one of the names in `S` string-prefixes `name`. -/
abbrev UniqueMatch (S : List String) (name : String) : Prop :=
  ∀ a ∈ S, ∀ b ∈ S, strStarts name a = true → strStarts name b = true → a = b

theorem find?_eq_of_perm_of_unique {α : Type} (p : α → Bool) (l1 l2 : List α)
    (hperm : l1.Perm l2)
    (huniq : ∀ a ∈ l1, ∀ b ∈ l1, p a = true → p b = true → a = b) :
    l1.find? p = l2.find? p := by
  cases h1 : l1.find? p with
  | none =>
    cases h2 : l2.find? p with
    | none => rfl
    | some b =>
      have hpb := List.find?_some h2
      have hmb := List.mem_of_find?_eq_some h2
      exact absurd hpb (List.find?_eq_none.mp h1 b (hperm.symm.subset hmb))
  | some a =>
    have hpa := List.find?_some h1
    have hma := List.mem_of_find?_eq_some h1
    cases h2 : l2.find? p with
    | none =>
      exact absurd hpa (List.find?_eq_none.mp h2 a (hperm.subset hma))
    | some b =>
      have hpb := List.find?_some h2
      have hmb := List.mem_of_find?_eq_some h2
      rw [huniq a hma b (hperm.symm.subset hmb) hpa hpb]

theorem stripClassName_eq_of_perm (l1 l2 : List String) (name : String)
    (hperm : l1.Perm l2)
    (huniq : ∀ a ∈ l1, ∀ b ∈ l1,
      strStarts name a = true → strStarts name b = true → a = b) :
    stripClassName l1 name = stripClassName l2 name := by
  unfold stripClassName
  rw [find?_eq_of_perm_of_unique _ l1 l2 hperm huniq]

theorem convert_foreign_fn_eq_of_perm (l1 l2 enc : List String) (f : ForeignItemFn)
    (hperm : l1.Perm l2)
    (huniq : ∀ a ∈ l1, ∀ b ∈ l1,
      strStarts f.sig.ident a = true → strStarts f.sig.ident b = true → a = b) :
    convert_foreign_fn l1 enc f = convert_foreign_fn l2 enc f := by
  simp only [convert_foreign_fn]
  rw [stripClassName_eq_of_perm l1 l2 f.sig.ident hperm huniq]

/-- The idents of the plain functions in a foreign block. -/
def fnIdentsOfForeign (l : List ForeignItem) : List String :=
  l.filterMap (fun fi =>
    match fi with
    | .fn f => some f.sig.ident
    | _ => none)

/-- The foreign-function idents contributed by one item. -/
def fnIdentsOfItem : Item → List String
  | .foreignMod _ _ fits => fnIdentsOfForeign fits
  | _ => []

/-- All foreign-function idents of an item list. -/
def allFnIdents (items : List Item) : List String :=
  items.foldr (fun it acc => fnIdentsOfItem it ++ acc) []

/-- The value-safe aggregate names contributed by one item. -/
def podNamesOfItem (checker : ByValueChecker) : Item → List String
  | .structItem s => if checker.is_pod s.ident then [s.ident] else []
  | _ => []

/-- All value-safe aggregate names of an item list. -/
def podNamesOf (checker : ByValueChecker) (items : List Item) : List String :=
  items.foldr (fun it acc => podNamesOfItem checker it ++ acc) []

theorem cfmi_eq_of_perm (l1 l2 enc : List String) (hperm : l1.Perm l2) :
    ∀ (fits : List ForeignItem),
      (∀ n ∈ fnIdentsOfForeign fits, ∀ a ∈ l1, ∀ b ∈ l1,
        strStarts n a = true → strStarts n b = true → a = b) →
      convert_foreign_mod_items l1 enc fits = convert_foreign_mod_items l2 enc fits := by
  intro fits
  induction fits with
  | nil => intro _; rfl
  | cons hd tl ih =>
    intro hu
    cases hd with
    | fn f =>
      have hmem : f.sig.ident ∈ fnIdentsOfForeign (ForeignItem.fn f :: tl) := by
        simp [fnIdentsOfForeign]
      have htl : ∀ n ∈ fnIdentsOfForeign tl, ∀ a ∈ l1, ∀ b ∈ l1,
          strStarts n a = true → strStarts n b = true → a = b := by
        intro n hn
        exact hu n (by simp [fnIdentsOfForeign]; exact .inr (by
          simpa [fnIdentsOfForeign] using hn))
      simp only [convert_foreign_mod_items]
      rw [convert_foreign_fn_eq_of_perm l1 l2 enc f hperm (hu f.sig.ident hmem), ih htl]
    | includeDirective s => rfl
    | typeDecl n => rfl
    | otherForeign => rfl

theorem convertItem_eq_of_ord (oldRust : Bool) (fullInc : List String)
    (checker : ByValueChecker) (ord1 ord2 : List String → List String)
    (ho1 : ∀ l, (ord1 l).Perm l) (ho2 : ∀ l, (ord2 l).Perm l)
    (S : List String) (st : LoopSt) (hsub : st.classNames ⊆ S) (it : Item)
    (hu : ∀ n ∈ fnIdentsOfItem it, UniqueMatch S n) :
    convertItem oldRust fullInc checker ord1 st it
      = convertItem oldRust fullInc checker ord2 st it := by
  cases it <;> simp only [convertItem]
  case foreignMod fattrs fabi fitems =>
    have hperm : (ord1 st.classNames).Perm (ord2 st.classNames) :=
      (ho1 st.classNames).trans (ho2 st.classNames).symm
    have hu' : ∀ n ∈ fnIdentsOfForeign fitems, ∀ a ∈ ord1 st.classNames,
        ∀ b ∈ ord1 st.classNames,
        strStarts n a = true → strStarts n b = true → a = b := by
      intro n hn a ha b hb hpa hpb
      exact hu n hn a (hsub ((ho1 st.classNames).subset ha))
        b (hsub ((ho1 st.classNames).subset hb)) hpa hpb
    rw [cfmi_eq_of_perm _ _ _ hperm fitems hu']

theorem insertClassName_sub (l : List String) (x : String) (S : List String)
    (hl : l ⊆ S) (hx : x ∈ S) : insertClassName l x ⊆ S := by
  unfold insertClassName
  split
  · exact hl
  · intro y hy
    rcases List.mem_append.mp hy with h | h
    · exact hl h
    · simp at h
      subst h
      exact hx

theorem convertItem_classNames_sub (oldRust : Bool) (fullInc : List String)
    (checker : ByValueChecker) (ord : List String → List String) (st : LoopSt)
    (it : Item) (st' : LoopSt) (S : List String)
    (h : convertItem oldRust fullInc checker ord st it = .ok st')
    (hsub : st.classNames ⊆ S)
    (hpod : ∀ p ∈ podNamesOfItem checker it, p ∈ S) :
    st'.classNames ⊆ S := by
  cases it <;> simp only [convertItem, podNamesOfItem] at *
  case foreignMod fattrs fabi fitems =>
    split at h
    · cases h
    · injection h with h2
      subst h2
      exact hsub
  case structItem s =>
    split at h
    · rename_i hpodT
      injection h with h2
      subst h2
      refine insertClassName_sub _ _ _ hsub ?_
      exact hpod s.ident (by simp [hpodT])
    · injection h with h2
      subst h2
      exact hsub
  case implItem selfTy iitems =>
    split at h <;>
      (injection h with h2; subst h2; exact hsub)
  all_goals
    injection h with h2
    subst h2
    exact hsub

theorem convertLoop_eq_of_ord (oldRust : Bool) (fullInc : List String)
    (checker : ByValueChecker) (ord1 ord2 : List String → List String)
    (ho1 : ∀ l, (ord1 l).Perm l) (ho2 : ∀ l, (ord2 l).Perm l) (S : List String) :
    ∀ (items : List Item) (st : LoopSt),
      st.classNames ⊆ S →
      (∀ n ∈ allFnIdents items, UniqueMatch S n) →
      podNamesOf checker items ⊆ S →
      convertLoop oldRust fullInc checker ord1 items st
        = convertLoop oldRust fullInc checker ord2 items st := by
  intro items
  induction items with
  | nil => intro st _ _ _; rfl
  | cons hd tl ih =>
    intro st hsub hu hpod
    have huHd : ∀ n ∈ fnIdentsOfItem hd, UniqueMatch S n := by
      intro n hn
      exact hu n (by
        show n ∈ fnIdentsOfItem hd ++ allFnIdents tl
        exact List.mem_append_left _ hn)
    have huTl : ∀ n ∈ allFnIdents tl, UniqueMatch S n := by
      intro n hn
      exact hu n (by
        show n ∈ fnIdentsOfItem hd ++ allFnIdents tl
        exact List.mem_append_right _ hn)
    have hpodHd : ∀ p ∈ podNamesOfItem checker hd, p ∈ S := by
      intro p hp
      exact hpod (by
        show p ∈ podNamesOfItem checker hd ++ podNamesOf checker tl
        exact List.mem_append_left _ hp)
    have hpodTl : podNamesOf checker tl ⊆ S := by
      intro p hp
      exact hpod (by
        show p ∈ podNamesOfItem checker hd ++ podNamesOf checker tl
        exact List.mem_append_right _ hp)
    simp only [convertLoop]
    rw [convertItem_eq_of_ord oldRust fullInc checker ord1 ord2 ho1 ho2 S st hsub hd huHd]
    cases h2 : convertItem oldRust fullInc checker ord2 st hd with
    | error e => rfl
    | ok st' =>
      exact ih st'
        (convertItem_classNames_sub oldRust fullInc checker ord2 st hd st' S h2 hsub hpodHd)
        huTl hpodTl

/-- Inversion of a successful `convert` run into its three stages. -/
theorem convert_ok_inv (bc : BridgeConverter) (ord : List String → List String)
    (m : ItemMod) (e : Option String) (p : BridgeConversion × BridgeConverter)
    (h : BridgeConverter.convert bc ord m e = .ok p) :
    ∃ items ck st, m.content = some items
      ∧ find_nested_pod_types bc items = .ok ck
      ∧ convertLoop bc.old_rust (fullIncludeList bc e) ck ord items
          ⟨[], [], none, [], [], [], bc.class_names_discovered⟩ = .ok st
      ∧ p = finishConversion bc ck st := by
  unfold BridgeConverter.convert at h
  split at h
  · cases h
  · rename_i items heqc
    split at h
    · cases h
    · rename_i ck heqf
      split at h
      · cases h
      · rename_i st heql
        injection h with h2
        exact ⟨items, ck, st, heqc, heqf, heql, h2.symm⟩

/-! ## The claims -/

/-- Claim C1 (as stated, refuted): the input module contains the aggregate
`W`, the conversion succeeds, yet the types-to-disable list is empty — no
`EncounteredType` with kind Struct is recorded for an opaque aggregate. -/
theorem claim_c1_counterexample :
    c1Mod.content = some [Item.structItem ⟨[], "W", []⟩]
    ∧ resultIsOk c1Run = true
    ∧ typesToDisableOf c1Run = [] :=
  ⟨rfl, rfl, rfl⟩

/-- Claim C1 (amended): on every successful run, the types-to-disable list
is exactly one `EncounteredType` of kind Struct per *value-safe* aggregate
and one of kind Enum per enum, in input order; opaque aggregates record
nothing. -/
theorem claim_c1_encountered_struct_records (bc : BridgeConverter)
    (ord : List String → List String) (m : ItemMod) (e : Option String)
    (items : List Item) (hcontent : m.content = some items)
    (hok : resultIsOk (BridgeConverter.convert bc ord m e) = true) :
    typesToDisableOf (BridgeConverter.convert bc ord m e)
      = specTypesToDisable (checkerAfterFind bc items) items := by
  cases hr : BridgeConverter.convert bc ord m e with
  | error f =>
    rw [hr] at hok
    simp [resultIsOk] at hok
  | ok p =>
    obtain ⟨items2, ck, st, hc, hf, hl, hp⟩ := convert_ok_inv _ _ _ _ _ hr
    rw [hcontent] at hc
    injection hc with hc2
    subst hc2
    obtain ⟨hdis, _, _⟩ := convertLoop_effects _ _ _ _ _ _ _ hl
    simp only [typesToDisableOf, bundleOf]
    rw [hp]
    simp only [finishConversion]
    rw [hdis]
    simp [checkerAfterFind, hf]

/-- Witness for C1 (amended), at the value-safe `Widget` scenario. -/
theorem claim_c1_witness :
    typesToDisableOf c3RunPod
      = specTypesToDisable
          (checkerAfterFind (BridgeConverter.new ["widget.h"] ["Widget"] false) c3Items)
          c3Items :=
  claim_c1_encountered_struct_records
    (BridgeConverter.new ["widget.h"] ["Widget"] false) id c3Mod none c3Items rfl rfl

/-- Claim C2 (as stated, refuted): the input module defines aggregate `T`
with an impl-block method named `new`, the run succeeds and records the
`MakeUnique` need, yet the output still contains a foreign function named
`T_T`, because the foreign block precedes `T`'s definition in the item
list. -/
theorem claim_c2_counterexample :
    resultIsOk c2Run = true
    ∧ (externSigsOfResult c2Run).map Signature.ident = ["T_T"]
    ∧ needsOf c2Run = [AdditionalNeed.makeUnique "T" []] :=
  ⟨rfl, rfl, rfl⟩

/-- Claim C2 (amended): on every successful run (i) the additional-needs
list is exactly one `MakeUnique(T, constructor argument types)` per
impl-block method literally named `new`, in input order, and (ii) an input
foreign function named `T_T` is dropped by `convert_foreign_fn` (it
contributes nothing to the output) whenever `T` is among the aggregates
already encountered when its foreign block is processed. -/
theorem claim_c2_constructor_elision (bc : BridgeConverter)
    (ord : List String → List String) (m : ItemMod) (e : Option String)
    (items : List Item) (hcontent : m.content = some items)
    (hok : resultIsOk (BridgeConverter.convert bc ord m e) = true) :
    needsOf (BridgeConverter.convert bc ord m e) = specMakeUniqueNeeds items
    ∧ ∀ (classOrder enc : List String) (f : ForeignItemFn) (T : String),
        T ∈ enc → f.sig.ident = ctorName T →
        convert_foreign_fn classOrder enc f = some none := by
  constructor
  · cases hr : BridgeConverter.convert bc ord m e with
    | error f =>
      rw [hr] at hok
      simp [resultIsOk] at hok
    | ok p =>
      obtain ⟨items2, ck, st, hc, hf, hl, hp⟩ := convert_ok_inv _ _ _ _ _ hr
      rw [hcontent] at hc
      injection hc with hc2
      subst hc2
      obtain ⟨_, hneeds, _⟩ := convertLoop_effects _ _ _ _ _ _ _ hl
      simp only [needsOf, bundleOf]
      rw [hp]
      simp only [finishConversion]
      rw [hneeds]
      simp
  · intro classOrder enc f T hT hname
    have hc : (enc.any fun ty => f.sig.ident == ctorName ty) = true :=
      List.any_eq_true.mpr ⟨T, hT, by rw [hname]; exact beq_self_eq_true _⟩
    simp [convert_foreign_fn, hc]

/-- Witness for C2 (amended): at the `c2Mod` input the recorded needs equal
the spec characterization, and a `T_T` function is dropped once `T` has
been encountered. -/
theorem claim_c2_witness :
    needsOf c2Run = specMakeUniqueNeeds c2Items
    ∧ convert_foreign_fn [] ["T"] ⟨[], ⟨"T_T", false, [], none⟩⟩ = some none :=
  ⟨(claim_c2_constructor_elision (BridgeConverter.new [] [] false) id c2Mod none
      c2Items rfl rfl).1,
   (claim_c2_constructor_elision (BridgeConverter.new [] [] false) id c2Mod none
      c2Items rfl rfl).2 [] ["T"] ⟨[], ⟨"T_T", false, [], none⟩⟩ "T" (by decide) rfl⟩

/-- Claim C3 (as stated, refuted): the input contains aggregate `Widget`
and the foreign function `Widget_resize(this: *mut Widget, w: i32)`, the
run succeeds, yet the only output foreign function is still named
`Widget_resize` — the class-name prefix is only stripped when `Widget` is
classified value-safe, because only `convert_struct` (the value-safe
branch) inserts into the class-name set. -/
theorem claim_c3_counterexample :
    resultIsOk c3RunOpaque = true
    ∧ (externSigsOfResult c3RunOpaque).map Signature.ident = ["Widget_resize"] :=
  ⟨rfl, rfl⟩

/-- Claim C3 (amended): with `Widget` requested (and proven) value-safe and
defined before the foreign block, the output contains exactly one foreign
function, named `resize`, whose first parameter is renamed `self` with type
`&mut Widget` (no lifetime), the second parameter passing through. -/
theorem claim_c3_method_rewrite :
    resultIsOk c3RunPod = true
    ∧ externSigsOfResult c3RunPod
      = [⟨"resize", false,
          [ FnArg.typed (Pat.identPat "self") (RType.ref none true (plainPath "Widget")),
            FnArg.typed (Pat.identPat "w") (plainPath "i32") ], none⟩] :=
  ⟨rfl, rfl⟩

/-- Claim C4 (as stated, refuted): a parameter whose type is a tuple
containing a raw pointer is passed through `convert_fn_arg` unchanged, so a
raw-pointer type can remain in a converted signature at nesting depths the
conversion does not visit. -/
theorem claim_c4_counterexample :
    convert_fn_arg
        (FnArg.typed (Pat.identPat "x") (RType.tuple [RType.ptr true (plainPath "T")]))
      = (FnArg.typed (Pat.identPat "x") (RType.tuple [RType.ptr true (plainPath "T")]), false)
    ∧ containsPtr (RType.tuple [RType.ptr true (plainPath "T")]) = true :=
  ⟨rfl, rfl⟩

/-- Claim C4 (amended): every raw pointer becomes exactly one reference of
matching mutability with no lifetime, and no raw pointer survives
conversion in any type built from the shapes the conversion recurses into
(paths with angle-bracketed arguments, references, pointers); pointers
nested inside other shapes (tuples and the like, parenthesized generic
arguments) pass through unchanged. -/
theorem claim_c4_pointer_elimination :
    (∀ (m : Bool) (e : RType), convert_type (.ptr m e) = .ref none m (convert_type e))
    ∧ (∀ t : RType, regularShape t = true → containsPtr (convert_type t) = false) :=
  ⟨fun _ _ => rfl, fun t h => regular_no_ptr t h⟩

/-- Witness for C4 (amended), at `*mut T`. -/
theorem claim_c4_witness :
    convert_type (RType.ptr true (plainPath "T"))
      = RType.ref none true (convert_type (plainPath "T"))
    ∧ containsPtr (convert_type (RType.ptr true (plainPath "T"))) = false :=
  ⟨claim_c4_pointer_elimination.1 true (plainPath "T"),
   claim_c4_pointer_elimination.2 (RType.ptr true (plainPath "T")) (by decide)⟩

/-- Claim C5: the dependency query over struct items — early phase: field
types of a Pod struct; later phase: field types then constructor/allocator
dependencies for a Pod struct, constructor/allocator dependencies only for
an opaque struct; order-preserving with duplicates allowed (the result is
literally these lists). -/
theorem claim_c5_struct_dependencies (fts cads : List String) :
    depsPre (.structApi ⟨.pod, fts⟩) = fts
    ∧ depsFn (.structApi ⟨⟨.pod, fts⟩, cads⟩) = fts ++ cads
    ∧ depsFn (.structApi ⟨⟨.opaque_, fts⟩, cads⟩) = cads :=
  ⟨rfl, rfl, rfl⟩

/-- Claim C6: `convert` fails with `NoContent` exactly when the input
module has no body; in particular a present-but-empty body never produces
this error, and no later stage can raise it. -/
theorem claim_c6_nocontent_iff (bc : BridgeConverter) (ord : List String → List String)
    (m : ItemMod) (e : Option String) :
    BridgeConverter.convert bc ord m e = .error (.convErr .NoContent)
      ↔ m.content = none := by
  constructor
  · intro h
    unfold BridgeConverter.convert at h
    split at h
    · rename_i heq
      exact heq
    · rename_i items heq
      exfalso
      split at h
      · simp at h
      · split at h
        · rename_i f hl
          injection h with h2
          subst h2
          rcases convertLoop_error_shape _ _ _ _ _ _ _ hl with h3 | h3 <;> simp at h3
        · simp at h
  · intro h
    unfold BridgeConverter.convert
    rw [h]

/-- Claim C7: the type conversion is idempotent — converting an
already-converted type changes nothing. -/
theorem claim_c7_convert_type_idempotent (t : RType) :
    convert_type (convert_type t) = convert_type t :=
  convert_type_idem t

/-- Claim C8 (as stated, refuted): one identical input (aggregates `A` and
`A_B`, method `A_B_foo`), two freshly constructed converters, two valid
hash-set enumeration orders — the method name is stripped to `B_foo` in one
run and `foo` in the other, so the bundles differ. -/
theorem claim_c8_counterexample :
    (externSigsOfResult c8Run1).map Signature.ident = ["B_foo"]
    ∧ (externSigsOfResult c8Run2).map Signature.ident = ["foo"]
    ∧ c8Run1 ≠ c8Run2 := by
  refine ⟨rfl, rfl, fun h => ?_⟩
  have h2 := congrArg (fun r => (externSigsOfResult r).map Signature.ident) h
  exact absurd h2 (by decide)

/-- Claim C8 (amended): the conversion is deterministic up to the
iteration order of the class-name hash set; in particular, whenever no
foreign-function name is prefix-matched by two distinct discovered class
names, any two enumeration orders of the set produce identical output. -/
theorem claim_c8_determinism (bc : BridgeConverter)
    (ord1 ord2 : List String → List String) (m : ItemMod) (e : Option String)
    (items : List Item)
    (ho1 : ∀ l, (ord1 l).Perm l) (ho2 : ∀ l, (ord2 l).Perm l)
    (hcontent : m.content = some items)
    (hu : ∀ n ∈ allFnIdents items,
      UniqueMatch
        (bc.class_names_discovered ++ podNamesOf (checkerAfterFind bc items) items) n) :
    BridgeConverter.convert bc ord1 m e = BridgeConverter.convert bc ord2 m e := by
  obtain ⟨c⟩ := m
  simp only at hcontent
  subst hcontent
  unfold BridgeConverter.convert
  cases hf : find_nested_pod_types bc items with
  | error s => simp only [hf]
  | ok ck =>
    simp only [hf]
    have hck : checkerAfterFind bc items = ck := by
      simp [checkerAfterFind, hf]
    rw [hck] at hu
    rw [convertLoop_eq_of_ord bc.old_rust (fullIncludeList bc e) ck ord1 ord2 ho1 ho2
      (bc.class_names_discovered ++ podNamesOf ck items) items
      ⟨[], [], none, [], [], [], bc.class_names_discovered⟩
      (List.subset_append_left _ _) hu (List.subset_append_right _ _)]

/-- Witness for C8 (amended): with a single class name every method name
has at most one matching class prefix, and the identity and reversed
enumerations give the same result. -/
theorem claim_c8_witness :
    BridgeConverter.convert (BridgeConverter.new [] ["A"] false) id c8wMod none
      = BridgeConverter.convert (BridgeConverter.new [] ["A"] false) List.reverse c8wMod none :=
  claim_c8_determinism (BridgeConverter.new [] ["A"] false) id List.reverse c8wMod none
    c8wItems (fun l => List.Perm.refl l) (fun l => List.reverse_perm l) rfl (by decide)

/-- Claim C9 (as stated, refuted): the same input module and configuration,
converted once through a converter that already ran on an earlier module
and once through a freshly constructed converter, give different results:
the first succeeds (with the method name stripped using the class name
discovered in the *earlier* run), the second aborts with `UnsafePODType`
(the checker's ingested structs also persist). -/
theorem claim_c9_counterexample :
    resultIsOk c9Run2Seq = true
    ∧ (externSigsOfResult c9Run2Seq).map Signature.ident = ["foo"]
    ∧ c9Run2Fresh = .error (.convErr (.UnsafePODType "A")) :=
  ⟨rfl, rfl, rfl⟩

/-- Claim C9 (amended): the class-name set and the by-value checker are
converter fields that persist across `convert` calls; within one
successful call the class-name set only grows (the post-run set extends
the pre-run set), so run independence holds only across freshly
constructed converters. -/
theorem claim_c9_state_growth (bc : BridgeConverter) (ord : List String → List String)
    (m : ItemMod) (e : Option String)
    (hok : resultIsOk (BridgeConverter.convert bc ord m e) = true) :
    ∃ t, (converterAfter (BridgeConverter.convert bc ord m e)).class_names_discovered
      = bc.class_names_discovered ++ t := by
  cases hr : BridgeConverter.convert bc ord m e with
  | error f =>
    rw [hr] at hok
    simp [resultIsOk] at hok
  | ok p =>
    obtain ⟨items, ck, st, hc, hf, hl, hp⟩ := convert_ok_inv _ _ _ _ _ hr
    obtain ⟨_, _, t, ht⟩ := convertLoop_effects _ _ _ _ _ _ _ hl
    refine ⟨t, ?_⟩
    simp only [converterAfter]
    rw [hp]
    simp only [finishConversion]
    exact ht

/-- Witness for C9 (amended), at the first run of the C9 scenario. -/
theorem claim_c9_witness :
    ∃ t, (converterAfter c9Run1).class_names_discovered
      = c9Converter0.class_names_discovered ++ t :=
  claim_c9_state_growth c9Converter0 id c9Mod1 none rfl

/-- Claim C10: `convert` panics on both boundary inputs the claim names —
via the out-of-range string slice when a method's name equals a discovered
class name (`Widget(this: *mut Widget)` with class `Widget`), and via the
empty-identifier validation of `Ident::new` when the name is exactly one
character longer (`Widgets`, whose stripped remainder is empty). -/
theorem claim_c10_panic :
    c10Run = .error .panicked ∧ c10bRun = .error .panicked :=
  ⟨rfl, rfl⟩

end Autocxx
